import Mathlib

/-!
Shallow embedding of `src/sacn/receiver.go` from arixey/go-sacn: the
receive-side merge engine for sACN/E1.31.  Times are modelled as `Nat`
milliseconds; Go's `time.Since(t) > timeoutMs*time.Millisecond` becomes
`now - t > timeoutMs` (Nat truncated subtraction agrees with Go here: a
negative Go duration is never `> timeout`, and Nat gives `0` there).
Go maps keyed by `[16]byte` become association lists keyed by `List Nat`.
-/

namespace Sacn

/-- A transmitter identifier: the `[16]byte` CID, modelled as its byte list. -/
abbrev CID := List Nat

/-- Modelled from the spec: the constant `timeoutMs` is declared outside
`src/`; §4.4 of the spec fixes it to 2500 ms. -/
def timeoutMs : Nat := 2500

/-- Modelled from the spec: the `DataPacket` type and its read-only accessors
`Universe()`, `CID()`, `Sequence()`, `Priority()`, `Data()` are defined
outside `src/`; modelled as a record of those five fields. -/
structure DataPacket where
  univ : Nat
  cid : CID
  sequ : Nat
  priority : Nat
  data : List Nat
deriving DecidableEq, Repr

/-- The per-source record `source` of receiver.go (lines 116-123). -/
structure Source where
  lastTime : Nat
  lastTimeHighPrio : Nat
  highestPrio : Nat
deriving DecidableEq, Repr

/-- The per-univ record `lastData` (sources map, last accepted sequence,
last accepted DMX payload, last accepted time). -/
structure LastData where
  lastSequ : Nat
  lastTime : Nat
  lastDMXdata : List Nat
  sources : List (CID × Source)
deriving DecidableEq, Repr

/-- `checkSequ` (receiver.go lines 187-194): `tmp := int(new) - int(old)`;
reject iff `tmp <= 0 && tmp > -20`.  The `int` conversions widen the bytes,
so no 8-bit wraparound occurs in the subtraction. -/
def checkSequ (old nw : Nat) : Bool :=
  let tmp : Int := (nw : Int) - (old : Int)
  if tmp ≤ 0 ∧ tmp > -20 then false else true

/-- The field assignments that lines 132-148 of `updateSourcesMap` perform on
the loop variable `value` for the entry matching the packet's CID.  In Go,
`value` is a copy of the map value and is never written back to the map, so
this computation is discarded; it is kept here to state what the code's own
comments say the update should be. -/
def sourceFieldUpdate (v : Source) (p : DataPacket) (now : Nat) : Source :=
  let v := { v with lastTime := now }
  if v.highestPrio < p.priority then
    { v with highestPrio := p.priority, lastTimeHighPrio := now }
  else if v.highestPrio = p.priority then
    { v with lastTimeHighPrio := now }
  else if now - v.lastTimeHighPrio > timeoutMs then
    { v with highestPrio := p.priority, lastTimeHighPrio := now }
  else v

/-- `updateSourcesMap` (receiver.go lines 126-166).  The range loop keeps the
entry matching the packet's CID unchanged (the field writes land on a
discarded copy, see `sourceFieldUpdate`), deletes every other entry whose
`lastTime` is more than `timeoutMs` before `now`, and keeps the rest; after
the loop, a fresh entry is inserted when no entry for the packet's CID
exists. -/
def updateSourcesMap (m : List (CID × Source)) (p : DataPacket) (now : Nat) :
    List (CID × Source) :=
  let m1 := m.filter fun kv =>
    kv.1 == p.cid || !(decide (now - kv.2.lastTime > timeoutMs))
  if (m1.lookup p.cid).isSome then m1
  else m1 ++ [(p.cid, ⟨now, now, p.priority⟩)]

/-- The accumulation loop of `getAllowedSources` (receiver.go lines 170-175):
fold the entries, replacing the accumulator whenever an entry's
`highestPrio` exceeds it.  The source runs it with initial accumulator
`byte(0)`. -/
def prioFoldFrom (a : Nat) (m : List (CID × Source)) : Nat :=
  m.foldl (fun acc kv => if kv.2.highestPrio > acc then kv.2.highestPrio else acc) a

/-- `getAllowedSources` (receiver.go lines 168-185): fold for the highest
`highestPrio` starting from 0, then collect the CIDs holding it. -/
def getAllowedSources (m : List (CID × Source)) : List CID :=
  let highestPrio := prioFoldFrom 0 m
  ((m.filter fun kv => kv.2.highestPrio == highestPrio).map Prod.fst)

/-- Modelled from the spec: `equalData` is defined outside `src/`; §4.3 says
the payload is compared byte-for-byte with `lastData`. -/
def equalData (a b : List Nat) : Bool := a == b

/-- The `else` branch of `handle` (receiver.go lines 108-112): dereference
the univ's `lastData` pointer (nil when the map has no entry, modelled
as `none`) and emit a "timeout" error when the univ has been silent for
more than `timeoutMs`.  The state is left untouched. -/
def timeoutCheck (lastDatas : List (Nat × LastData)) (univ now : Nat) :
    Option (LastData × List DataPacket × List (Nat × String)) :=
  match lastDatas.lookup univ with
  | none => none
  | some ld =>
    if now - ld.lastTime > timeoutMs then
      some (ld, [], [(univ, "timeout")])
    else
      some (ld, [], [])

/-- `handle` (receiver.go lines 78-113).  `activated` models the receiver's
set of active universes (`r.isActive`), `lastDatas` the map
`r.lastDatas` restricted to what `handle` touches; the result is `none` when
the code would dereference a nil `*lastData` (univ absent from the map),
and otherwise the univ's new `lastData` value together with the packets
sent on the data channel and the `(univ, message)` errors sent on the
error channel. -/
def handle (activated : List Nat) (lastDatas : List (Nat × LastData))
    (univ : Nat) (p : Option DataPacket) (now : Nat) :
    Option (LastData × List DataPacket × List (Nat × String)) :=
  match p with
  | some pkt =>
    if univ == pkt.univ && activated.contains univ then
      match lastDatas.lookup univ with
      | none => none
      | some ld =>
        let m := updateSourcesMap ld.sources pkt now
        let tmp := getAllowedSources m
        if tmp.length > 1 then
          some ({ ld with sources := m }, [], [(univ, "sources exceeded")])
        else if tmp.contains pkt.cid then
          if !checkSequ ld.lastSequ pkt.sequ then
            some ({ ld with sources := m }, [], [])
          else if !equalData ld.lastDMXdata pkt.data then
            some (⟨pkt.sequ, now, pkt.data, m⟩, [pkt], [])
          else
            some (⟨pkt.sequ, now, ld.lastDMXdata, m⟩, [], [])
        else
          some ({ ld with sources := m }, [], [])
    else timeoutCheck lastDatas univ now
  | none => timeoutCheck lastDatas univ now

/-! Theorems. -/

set_option maxRecDepth 8000 in
/-- C9: for every 8-bit `old`, `checkSequ old ((old+1) mod 256)` is true (so
`checkSequ 255 0` is true across the wrap) and `checkSequ old old` is
false. -/
theorem checkSequ_increment_accepts_same_rejects :
    ∀ old : Fin 256,
      checkSequ old.val ((old.val + 1) % 256) = true
      ∧ checkSequ old.val old.val = false := by
  decide

/-- C2 counterexample: the claim asserts `checkSequ old (old-1 mod 256)` is
false for every 8-bit `old`; at `old = 0` the wrapped predecessor is 255 and
`checkSequ 0 255` computes delta `255`, which is accepted, so the claim
fails. -/
theorem checkSequ_wrap_counterexample :
    (0 + 256 - 1) % 256 = 255 ∧ checkSequ 0 255 = true := by
  decide

set_option maxRecDepth 8000 in
/-- C2 amended: `checkSequ old ((old-20) mod 256)` is true for every 8-bit
`old`; `checkSequ old (old-1)` is false whenever `old ≥ 1` and
`checkSequ old (old-19)` is false whenever `old ≥ 19`, i.e. whenever the
subtraction does not wrap (when it wraps, the widened delta is a large
positive number and `checkSequ` accepts). -/
theorem checkSequ_window_boundaries :
    (∀ old : Fin 256, checkSequ old.val ((old.val + 236) % 256) = true)
    ∧ (∀ old : Fin 256, 1 ≤ old.val → checkSequ old.val (old.val - 1) = false)
    ∧ (∀ old : Fin 256, 19 ≤ old.val → checkSequ old.val (old.val - 19) = false) := by
  decide

/-- C2 amended, witness at `old = 20`. -/
theorem checkSequ_window_boundaries_inst :
    checkSequ 20 ((20 + 236) % 256) = true
    ∧ checkSequ 20 (20 - 1) = false
    ∧ checkSequ 20 (20 - 19) = false :=
  ⟨checkSequ_window_boundaries.1 ⟨20, by decide⟩,
   checkSequ_window_boundaries.2.1 ⟨20, by decide⟩ (by decide),
   checkSequ_window_boundaries.2.2 ⟨20, by decide⟩ (by decide)⟩

/-- C1: evaluation exhibiting the lost update in `updateSourcesMap`.  With
an existing entry for the packet's CID holding `lastTime = 0`,
`lastTimeHighPrio = 0`, `highestPrio = 100`, and a packet of priority 200
arriving at `now = 10`, the map still holds the original record after the
call — the assignments of lines 132-148 go to the discarded range-loop copy
(`sourceFieldUpdate`, which would have produced `lastTime = 10`,
`lastTimeHighPrio = 10`, `highestPrio = 200` as the code's comments and the
spec describe). -/
theorem updateSourcesMap_matching_entry_stale :
    updateSourcesMap [([1], ⟨0, 0, 100⟩)] ⟨1, [1], 5, 200, [7]⟩ 10
        = [([1], ⟨0, 0, 100⟩)]
    ∧ sourceFieldUpdate ⟨0, 0, 100⟩ ⟨1, [1], 5, 200, [7]⟩ 10 = ⟨10, 10, 200⟩ := by
  decide

theorem prioFoldFrom_cons (a : Nat) (hd : CID × Source) (tl : List (CID × Source)) :
    prioFoldFrom a (hd :: tl)
      = prioFoldFrom (if hd.2.highestPrio > a then hd.2.highestPrio else a) tl := rfl

theorem le_prioFoldFrom (m : List (CID × Source)) :
    ∀ a, a ≤ prioFoldFrom a m := by
  induction m with
  | nil => intro a; simp [prioFoldFrom]
  | cons hd tl ih =>
    intro a
    rw [prioFoldFrom_cons]
    have h1 : a ≤ if hd.2.highestPrio > a then hd.2.highestPrio else a := by
      split <;> omega
    exact h1.trans (ih _)

theorem mem_le_prioFoldFrom (m : List (CID × Source)) :
    ∀ a kv, kv ∈ m → kv.2.highestPrio ≤ prioFoldFrom a m := by
  induction m with
  | nil => intro a kv h; cases h
  | cons hd tl ih =>
    intro a kv h
    rw [prioFoldFrom_cons]
    rcases List.mem_cons.mp h with rfl | h
    · have h1 : kv.2.highestPrio ≤ if kv.2.highestPrio > a then kv.2.highestPrio else a := by
        split <;> omega
      exact h1.trans (le_prioFoldFrom tl _)
    · exact ih _ kv h

theorem prioFoldFrom_cases (m : List (CID × Source)) :
    ∀ a, prioFoldFrom a m = a ∨ ∃ kv, kv ∈ m ∧ prioFoldFrom a m = kv.2.highestPrio := by
  induction m with
  | nil => intro a; left; rfl
  | cons hd tl ih =>
    intro a
    rw [prioFoldFrom_cons]
    rcases ih (if hd.2.highestPrio > a then hd.2.highestPrio else a) with h | ⟨kv, hkm, hkv⟩
    · rw [h]
      split
      · exact Or.inr ⟨hd, List.mem_cons_self hd tl, rfl⟩
      · exact Or.inl rfl
    · exact Or.inr ⟨kv, List.mem_cons_of_mem hd hkm, hkv⟩

/-- C8: membership in `getAllowedSources m` is exactly having an entry in `m`
whose `highestPrio` is greatest among all entries; the empty map yields the
empty list. -/
theorem getAllowedSources_winning_set (m : List (CID × Source)) (c : CID) :
    (c ∈ getAllowedSources m
      ↔ ∃ s, (c, s) ∈ m ∧ ∀ kv ∈ m, kv.2.highestPrio ≤ s.highestPrio)
    ∧ getAllowedSources [] = ([] : List CID) := by
  refine ⟨⟨?_, ?_⟩, rfl⟩
  · intro hc
    simp only [getAllowedSources, List.mem_map, List.mem_filter] at hc
    obtain ⟨kv, ⟨hkm, hp⟩, hfst⟩ := hc
    have hp' : kv.2.highestPrio = prioFoldFrom 0 m := by
      simpa using hp
    refine ⟨kv.2, ?_, ?_⟩
    · rw [← hfst]; exact hkm
    · intro kv' hkv'
      have := mem_le_prioFoldFrom m 0 kv' hkv'
      omega
  · rintro ⟨s, hsm, hmax⟩
    have h1 : s.highestPrio ≤ prioFoldFrom 0 m := mem_le_prioFoldFrom m 0 (c, s) hsm
    have h2 : prioFoldFrom 0 m ≤ s.highestPrio := by
      rcases prioFoldFrom_cases m 0 with h | ⟨kv, hkm, hkv⟩
      · omega
      · have := hmax kv hkm; omega
    simp only [getAllowedSources, List.mem_map, List.mem_filter]
    exact ⟨(c, s), ⟨hsm, by simp; omega⟩, rfl⟩

/-- C8 witness. -/
theorem getAllowedSources_winning_set_inst :
    [1] ∈ getAllowedSources [([1], ⟨5, 5, 100⟩)] :=
  (getAllowedSources_winning_set [([1], ⟨5, 5, 100⟩)] [1]).1.2
    ⟨⟨5, 5, 100⟩, by simp, by intro kv h; simp at h; simp [h]⟩

/-- C7: after `updateSourcesMap m p now`, no surviving entry keyed by a CID
other than the packet's is stale (its `lastTime` more than `timeoutMs`
before `now`), and every non-stale entry keyed by another CID survives with
its fields unchanged. -/
theorem updateSourcesMap_other_entries (m : List (CID × Source)) (p : DataPacket)
    (now : Nat) (key : CID) (s : Source) (hk : key ≠ p.cid) :
    ((key, s) ∈ updateSourcesMap m p now → ¬ now - s.lastTime > timeoutMs)
    ∧ ((key, s) ∈ m → ¬ now - s.lastTime > timeoutMs →
        (key, s) ∈ updateSourcesMap m p now) := by
  have hbeq : (key == p.cid) = false := by
    simpa using hk
  have hmem1 : ∀ x : List (CID × Source),
      (key, s) ∈ x.filter (fun kv => kv.1 == p.cid || !(decide (now - kv.2.lastTime > timeoutMs)))
        ↔ ((key, s) ∈ x ∧ ¬ now - s.lastTime > timeoutMs) := by
    intro x
    rw [List.mem_filter]
    simp [hbeq]
  constructor
  · intro hmem
    simp only [updateSourcesMap] at hmem
    split at hmem
    · exact ((hmem1 m).mp hmem).2
    · rcases List.mem_append.mp hmem with h | h
      · exact ((hmem1 m).mp h).2
      · simp at h
        exact absurd h.1 hk
  · intro hmemm hfresh
    simp only [updateSourcesMap]
    split
    · exact (hmem1 m).mpr ⟨hmemm, hfresh⟩
    · exact List.mem_append.mpr (Or.inl ((hmem1 m).mpr ⟨hmemm, hfresh⟩))

/-- C7 witness. -/
theorem updateSourcesMap_other_entries_inst :
    ([2], (⟨5, 5, 100⟩ : Source)) ∈ updateSourcesMap [([2], ⟨5, 5, 100⟩)] ⟨1, [1], 5, 200, [7]⟩ 10 :=
  (updateSourcesMap_other_entries [([2], ⟨5, 5, 100⟩)] ⟨1, [1], 5, 200, [7]⟩ 10 [2] ⟨5, 5, 100⟩
    (by decide)).2 (by simp) (by decide)

/-- C3: on the packet path, when the winning set computed after
`updateSourcesMap` holds more than one CID, `handle` emits exactly one
"sources exceeded" error, emits nothing on the data channel, and leaves
`lastSequ`, `lastTime` and `lastDMXdata` unchanged. -/
theorem handle_sources_exceeded (activated : List Nat)
    (lastDatas : List (Nat × LastData)) (univ : Nat) (pkt : DataPacket)
    (now : Nat) (ld : LastData)
    (hld : lastDatas.lookup univ = some ld)
    (hu : univ = pkt.univ) (ha : activated.contains univ = true)
    (hlen : (getAllowedSources (updateSourcesMap ld.sources pkt now)).length > 1) :
    ∃ ld', handle activated lastDatas univ (some pkt) now
        = some (ld', [], [(univ, "sources exceeded")])
      ∧ ld'.lastSequ = ld.lastSequ ∧ ld'.lastTime = ld.lastTime
      ∧ ld'.lastDMXdata = ld.lastDMXdata := by
  subst hu
  have ha' : pkt.univ ∈ activated := by simpa using ha
  refine ⟨{ ld with sources := updateSourcesMap ld.sources pkt now }, ?_, rfl, rfl, rfl⟩
  simp [handle, hld, ha', hlen]

/-- C3 witness: two sources tied at priority 100. -/
theorem handle_sources_exceeded_inst :
    ∃ ld', handle [1] [(1, ⟨5, 0, [0], [([1], ⟨5,5,100⟩), ([2], ⟨5,5,100⟩)]⟩)] 1
        (some ⟨1, [1], 6, 100, [7]⟩) 10
        = some (ld', [], [(1, "sources exceeded")])
      ∧ ld'.lastSequ = 5 ∧ ld'.lastTime = 0 ∧ ld'.lastDMXdata = [0] :=
  handle_sources_exceeded [1] [(1, ⟨5, 0, [0], [([1], ⟨5,5,100⟩), ([2], ⟨5,5,100⟩)]⟩)] 1
    ⟨1, [1], 6, 100, [7]⟩ 10 ⟨5, 0, [0], [([1], ⟨5,5,100⟩), ([2], ⟨5,5,100⟩)]⟩
    (by rfl) (by rfl) (by rfl) (by decide)

/-- C4: on the packet path, when the winning set is exactly the packet's CID
and the sequence check passes, `handle` stores the packet's sequence number,
refreshes `lastTime` to `now`, emits no error, and emits the packet on the
data channel with `lastDMXdata` replaced by the payload exactly when the
payload differs from the stored `lastDMXdata`; an identical payload is
accepted without emission and with `lastDMXdata` kept. -/
theorem handle_accepted_packet (activated : List Nat)
    (lastDatas : List (Nat × LastData)) (univ : Nat) (pkt : DataPacket)
    (now : Nat) (ld : LastData)
    (hld : lastDatas.lookup univ = some ld)
    (hu : univ = pkt.univ) (ha : activated.contains univ = true)
    (htmp : getAllowedSources (updateSourcesMap ld.sources pkt now) = [pkt.cid])
    (hseq : checkSequ ld.lastSequ pkt.sequ = true) :
    ∃ ld' d, handle activated lastDatas univ (some pkt) now = some (ld', d, [])
      ∧ ld'.lastSequ = pkt.sequ ∧ ld'.lastTime = now
      ∧ (if equalData ld.lastDMXdata pkt.data then
           d = [] ∧ ld'.lastDMXdata = ld.lastDMXdata
         else d = [pkt] ∧ ld'.lastDMXdata = pkt.data) := by
  subst hu
  have ha' : pkt.univ ∈ activated := by simpa using ha
  cases heq : equalData ld.lastDMXdata pkt.data with
  | false =>
    refine ⟨⟨pkt.sequ, now, pkt.data, updateSourcesMap ld.sources pkt now⟩, [pkt], ?_⟩
    simp [handle, hld, ha', htmp, hseq, heq]
  | true =>
    refine ⟨⟨pkt.sequ, now, ld.lastDMXdata, updateSourcesMap ld.sources pkt now⟩, [], ?_⟩
    simp [handle, hld, ha', htmp, hseq, heq]

/-- C4 witness (payload differs from the stored one: packet emitted). -/
theorem handle_accepted_packet_inst :
    ∃ ld' d, handle [1] [(1, ⟨5, 0, [0], [([1], ⟨5,5,100⟩)]⟩)] 1
        (some ⟨1, [1], 6, 100, [7]⟩) 10 = some (ld', d, [])
      ∧ ld'.lastSequ = 6 ∧ ld'.lastTime = 10
      ∧ (if equalData [0] [7] then d = [] ∧ ld'.lastDMXdata = [0]
         else d = [⟨1, [1], 6, 100, [7]⟩] ∧ ld'.lastDMXdata = [7]) :=
  handle_accepted_packet [1] [(1, ⟨5, 0, [0], [([1], ⟨5,5,100⟩)]⟩)] 1
    ⟨1, [1], 6, 100, [7]⟩ 10 ⟨5, 0, [0], [([1], ⟨5,5,100⟩)]⟩
    (by rfl) (by rfl) (by rfl) (by decide) (by decide)

/-- C5: on the packet path, when the winning set has at most one element and
the packet's CID is not in it, `handle` drops the packet silently: nothing
on either channel, and `lastSequ`, `lastTime`, `lastDMXdata` unchanged (in
particular no sequence validation affects anything observable). -/
theorem handle_losing_source_dropped (activated : List Nat)
    (lastDatas : List (Nat × LastData)) (univ : Nat) (pkt : DataPacket)
    (now : Nat) (ld : LastData)
    (hld : lastDatas.lookup univ = some ld)
    (hu : univ = pkt.univ) (ha : activated.contains univ = true)
    (hlen : ¬ (getAllowedSources (updateSourcesMap ld.sources pkt now)).length > 1)
    (hmem : (getAllowedSources (updateSourcesMap ld.sources pkt now)).contains pkt.cid
        = false) :
    ∃ ld', handle activated lastDatas univ (some pkt) now = some (ld', [], [])
      ∧ ld'.lastSequ = ld.lastSequ ∧ ld'.lastTime = ld.lastTime
      ∧ ld'.lastDMXdata = ld.lastDMXdata := by
  subst hu
  have ha' : pkt.univ ∈ activated := by simpa using ha
  have hmem' : pkt.cid ∉ getAllowedSources (updateSourcesMap ld.sources pkt now) := by
    simpa using hmem
  refine ⟨{ ld with sources := updateSourcesMap ld.sources pkt now }, ?_, rfl, rfl, rfl⟩
  simp [handle, hld, ha', hlen, hmem']

/-- C5 witness: a live source at priority 200 owns the universe; a packet
from another CID at priority 100 is dropped silently. -/
theorem handle_losing_source_dropped_inst :
    ∃ ld', handle [1] [(1, ⟨5, 0, [0], [([2], ⟨5,5,200⟩)]⟩)] 1
        (some ⟨1, [1], 6, 100, [7]⟩) 10 = some (ld', [], [])
      ∧ ld'.lastSequ = 5 ∧ ld'.lastTime = 0 ∧ ld'.lastDMXdata = [0] :=
  handle_losing_source_dropped [1] [(1, ⟨5, 0, [0], [([2], ⟨5,5,200⟩)]⟩)] 1
    ⟨1, [1], 6, 100, [7]⟩ 10 ⟨5, 0, [0], [([2], ⟨5,5,200⟩)]⟩
    (by rfl) (by rfl) (by rfl) (by decide) (by decide)

/-- C6: when the packet is absent, belongs to a different universe, or the
universe is inactive, `handle` leaves the universe's state untouched and
emits a "timeout" error if and only if `now` is more than `timeoutMs`
(2500 ms) past the universe's `lastTime`. -/
theorem handle_absent_timeout (activated : List Nat)
    (lastDatas : List (Nat × LastData)) (univ : Nat) (p : Option DataPacket)
    (now : Nat) (ld : LastData)
    (hld : lastDatas.lookup univ = some ld)
    (h : p = none
        ∨ ∃ pkt, p = some pkt
            ∧ (univ ≠ pkt.univ ∨ activated.contains univ = false)) :
    handle activated lastDatas univ p now
      = some (ld, [],
          if now - ld.lastTime > timeoutMs then [(univ, "timeout")] else []) := by
  have htc : timeoutCheck lastDatas univ now
      = some (ld, [],
          if now - ld.lastTime > timeoutMs then [(univ, "timeout")] else []) := by
    simp only [timeoutCheck, hld]
    split <;> rfl
  rcases h with rfl | ⟨pkt, rfl, hcond⟩
  · simpa [handle] using htc
  · have hb : (univ == pkt.univ && activated.contains univ) = false := by
      rcases hcond with h1 | h1
      · simp [h1]
      · have h2 : univ ∉ activated := by simpa using h1
        simp [h2]
    simp only [handle, hb, Bool.false_eq_true, if_false]
    exact htc

/-- C6 witness: no packet arrived and the universe has been silent for
3000 ms, which exceeds the 2500 ms window: the timeout error is emitted. -/
theorem handle_absent_timeout_inst :
    handle [1] [(1, ⟨5, 0, [0], [([1], ⟨5,5,100⟩)]⟩)] 1 none 3000
      = some (⟨5, 0, [0], [([1], ⟨5,5,100⟩)]⟩, [],
          if 3000 - 0 > timeoutMs then [(1, "timeout")] else []) :=
  handle_absent_timeout [1] [(1, ⟨5, 0, [0], [([1], ⟨5,5,100⟩)]⟩)] 1 none 3000
    ⟨5, 0, [0], [([1], ⟨5,5,100⟩)]⟩ (by rfl) (Or.inl rfl)

/-- C10: `handle` dereferences the universe's `lastDatas` entry on every
path (to read its sources map on the packet path, and its `lastTime`
otherwise); it completes without a nil dereference exactly when the map
holds an entry for the universe. -/
theorem handle_total_iff_entry (activated : List Nat)
    (lastDatas : List (Nat × LastData)) (univ : Nat) (p : Option DataPacket)
    (now : Nat) :
    (handle activated lastDatas univ p now).isSome
      = (lastDatas.lookup univ).isSome := by
  have htc : (timeoutCheck lastDatas univ now).isSome
      = (lastDatas.lookup univ).isSome := by
    simp only [timeoutCheck]
    cases lastDatas.lookup univ with
    | none => rfl
    | some ld => simp only [Option.isSome_some]; split <;> rfl
  cases p with
  | none => simpa [handle] using htc
  | some pkt =>
    simp only [handle]
    split
    · cases hld : lastDatas.lookup univ with
      | none => simp [hld]
      | some ld =>
        simp only [hld, Option.isSome_some]
        split
        · rfl
        · split
          · split
            · rfl
            · split <;> rfl
          · rfl
    · exact htc

end Sacn
